import Mathlib

/-!
Verification of the two test-fixture generator scripts
(`create_test_files.py` and `generate_test_files.py`).

The scripts are embedded shallowly: the record builders become pure Lean
functions over an explicit stream of random draws, the emitters become
pure string-building functions, and the per-emitter try/except structure
becomes an explicit oracle saying which emitter bodies raise.
-/

namespace TFGen

/-! ## Randomness model

Python `random.randint(a, b)` samples the inclusive range `[a, b]`;
numpy `np.random.randint(low, high)` samples the half-open range
`[low, high)`.  Each call is modelled as a function of one draw `s`
from an unbounded stream of naturals; reduction modulo the size of the
range makes every value of the respective range reachable and no other.
-/

/-- Python `random.randint a b` (both ends inclusive), as a function of a raw draw. -/
def pyRandint (a b s : Nat) : Nat := a + s % (b - a + 1)

/-- numpy `np.random.randint low high` (high end exclusive), as a function of a raw draw. -/
def npRandint (low high s : Nat) : Nat := low + s % (high - low)

/-- Python `random.choice xs` / numpy `np.random.choice xs`: uniform pick of one element. -/
def pyChoice {α : Type} [Inhabited α] (xs : List α) (s : Nat) : α :=
  xs.getD (s % xs.length) default

/-! ## Calendar model

`create_test_files.py` computes `(datetime(2020,1,1) + timedelta(days=i)).isoformat()`;
`generate_test_files.py` uses `pd.date_range('2020-01-01', periods=100, freq='D')`.
Both need proleptic-Gregorian day arithmetic from the epoch 2020-01-01.
-/

structure Date where
  y : Nat
  m : Nat
  d : Nat
deriving DecidableEq

def isLeap (y : Nat) : Bool := (y % 4 == 0 && y % 100 != 0) || (y % 400 == 0)

def daysInMonth (y m : Nat) : Nat :=
  if m = 2 then (if isLeap y then 29 else 28)
  else if m = 4 ∨ m = 6 ∨ m = 9 ∨ m = 11 then 30
  else 31

def nextDay (dt : Date) : Date :=
  if dt.d < daysInMonth dt.y dt.m then ⟨dt.y, dt.m, dt.d + 1⟩
  else if dt.m < 12 then ⟨dt.y, dt.m + 1, 1⟩
  else ⟨dt.y + 1, 1, 1⟩

def addDays (dt : Date) : Nat → Date
  | 0 => dt
  | n + 1 => addDays (nextDay dt) n

/-- The fixed epoch used by both scripts: 2020-01-01. -/
def epoch : Date := ⟨2020, 1, 1⟩

/-- Zero-padded two-digit rendering, as in `datetime.isoformat`. -/
def pad2 (n : Nat) : String := if n < 10 then "0" ++ Nat.repr n else Nat.repr n

/-- The date part of `datetime.isoformat()` / `str` of a midnight pandas Timestamp. -/
def isoDate (dt : Date) : String := Nat.repr dt.y ++ "-" ++ pad2 dt.m ++ "-" ++ pad2 dt.d

/-- Full `datetime.isoformat()` of a midnight datetime, e.g. `2020-01-02T00:00:00`. -/
def isoDateTime (dt : Date) : String := isoDate dt ++ "T00:00:00"

/-! ## Records and the two dataset builders -/

/-- One tuple of raw random draws consumed while building one record. -/
structure Draw where
  ageS : Nat
  salaryS : Nat
  departmentS : Nat
  isActiveS : Nat

/-- The department list shared by both scripts. -/
def departments : List String := ["Engineering", "Marketing", "Sales", "HR"]

/-- A record of `create_test_files.py`: `join_date` is already an ISO string
(the script stores `(start_date + timedelta(days=i)).isoformat()`). -/
structure Record where
  id : Nat
  name : String
  age : Nat
  salary : Nat
  department : String
  is_active : Bool
  join_date : String
deriving DecidableEq

/-- The record built for loop index `i` in `create_test_files.py`, lines 19-29. -/
def mkRecord (i : Nat) (dr : Draw) : Record :=
  { id := i
  , name := "Person_" ++ Nat.repr i
  , age := pyRandint 18 80 dr.ageS
  , salary := pyRandint 30000 150000 dr.salaryS
  , department := pyChoice departments dr.departmentS
  , is_active := pyChoice [true, false] dr.isActiveS
  , join_date := isoDateTime (addDays epoch i) }

/-- The `data` list of `create_test_files.py`: records for `i in range(1, 101)`. -/
def createData (g : Nat → Draw) : List Record :=
  (List.range' 1 100).map fun i => mkRecord i (g i)

/-- A row of the DataFrame in `generate_test_files.py`.  `joinOffset` is the
number of days between the row's `join_date` Timestamp and 2020-01-01
(`pd.date_range('2020-01-01', periods=100, freq='D')` starts at the epoch). -/
structure GRecord where
  id : Nat
  name : String
  age : Nat
  salary : Nat
  department : String
  is_active : Bool
  joinOffset : Nat
deriving DecidableEq

/-- The row with `id = i` (1-based) of the DataFrame in `generate_test_files.py`, lines 15-23. -/
def mkGRecord (i : Nat) (dr : Draw) : GRecord :=
  { id := i
  , name := "Person_" ++ Nat.repr i
  , age := npRandint 18 80 dr.ageS
  , salary := npRandint 30000 150000 dr.salaryS
  , department := pyChoice departments dr.departmentS
  , is_active := pyChoice [true, false] dr.isActiveS
  , joinOffset := i - 1 }

/-- The DataFrame rows of `generate_test_files.py` in order. -/
def genData (g : Nat → Draw) : List GRecord :=
  (List.range' 1 100).map fun i => mkGRecord i (g i)

/-- A fixed, arbitrary draw used to instantiate universally quantified theorems. -/
def dZero : Draw := ⟨0, 0, 0, 0⟩

/-- A constant draw stream. -/
def gZero : Nat → Draw := fun _ => dZero

/-! ## Decimal digits

Helper characterization of core `Nat.repr`, used to reason about the decimal
renderings that the scripts interpolate into CSV and JSON text. -/

def decDigits (n : Nat) : List Char :=
  if _h : n < 10 then [Nat.digitChar n]
  else
    have : n / 10 < n := Nat.div_lt_self (by omega) (by omega)
    decDigits (n / 10) ++ [Nat.digitChar (n % 10)]

/-- Numeric value of a decimal digit character. -/
def charVal (c : Char) : Nat := c.toNat - 48

/-! ## String building helpers -/

/-- Join a list of strings with a separator (Python `sep.join`, and the shape
of the comma-separated f-string interpolations below). -/
def joinSep (sep : String) : List String → String
  | [] => ""
  | [x] => x
  | x :: y :: xs => x ++ sep ++ joinSep sep (y :: xs)

/-- Concatenation of newline-terminated lines. -/
def mkLines : List String → String
  | [] => ""
  | l :: ls => l ++ "\n" ++ mkLines ls

/-- Python `str` of a boolean. -/
def pyStr (b : Bool) : String := if b then "True" else "False"

/-! ## CSV emitters -/

/-- The header line of both scripts' sample.csv. -/
def csvHeader : String := "id,name,age,salary,department,is_active,join_date"

/-- The seven field renderings interpolated into the f-string of
`create_test_files.py`, line 58, in order. -/
def csvFields (r : Record) : List String :=
  [Nat.repr r.id, r.name, Nat.repr r.age, Nat.repr r.salary,
   r.department, pyStr r.is_active, r.join_date]

/-- One CSV data line of `create_test_files.py` (the f-string of line 58). -/
def csvLine (r : Record) : String :=
  Nat.repr r.id ++ "," ++ r.name ++ "," ++ Nat.repr r.age ++ "," ++
    Nat.repr r.salary ++ "," ++ r.department ++ "," ++ pyStr r.is_active ++
    "," ++ r.join_date

/-- The full text written to test-files/sample.csv by `create_test_files.py`
(lines 52-58): the header, then one line per record, written in a loop. -/
def csvContent (data : List Record) : String :=
  data.foldl (fun acc r => acc ++ (csvLine r ++ "\n")) (csvHeader ++ "\n")

/-- One data line of `df.to_csv` in `generate_test_files.py`.  Modelled from
the documented pandas rendering: integers in decimal, booleans as True/False,
an all-midnight datetime column as bare ISO dates. -/
def genCsvLine (r : GRecord) : String :=
  Nat.repr r.id ++ "," ++ r.name ++ "," ++ Nat.repr r.age ++ "," ++
    Nat.repr r.salary ++ "," ++ r.department ++ "," ++ pyStr r.is_active ++
    "," ++ isoDate (addDays epoch r.joinOffset)

/-- The text written to test-files/sample.csv by `generate_test_files.py`
(line 50, `df.to_csv(..., index=False)`). -/
def genCsvContent (rows : List GRecord) : String :=
  rows.foldl (fun acc r => acc ++ (genCsvLine r ++ "\n")) (csvHeader ++ "\n")

/-! ## JSON serialization

Model of Python `json.dumps` restricted to the values this program serializes:
flat objects whose values are nonnegative integers, strings and booleans. -/

/-- Scalar JSON values occurring in this program. -/
inductive JScalar where
  | jint : Nat → JScalar
  | jstr : String → JScalar
  | jbool : Bool → JScalar
deriving DecidableEq

/-- Four hexadecimal digits (`Nat.digitChar` covers 0..15). -/
def hex4 (n : Nat) : String :=
  ⟨[Nat.digitChar (n / 4096 % 16), Nat.digitChar (n / 256 % 16),
    Nat.digitChar (n / 16 % 16), Nat.digitChar (n % 16)]⟩

/-- Python json escaping of one character (`ensure_ascii=True`: every
character outside printable ASCII 0x20-0x7e is escaped).  Astral characters,
which json renders as surrogate pairs, do not occur in this program and are
rendered as a single escape here. -/
def escChar (c : Char) : String :=
  if c = '"' then "\\\""
  else if c = '\\' then "\\\\"
  else if c = '\n' then "\\n"
  else if c = '\t' then "\\t"
  else if c = '\r' then "\\r"
  else if c.toNat = 8 then "\\b"
  else if c.toNat = 12 then "\\f"
  else if c.toNat < 32 ∨ 126 < c.toNat then "\\u" ++ hex4 c.toNat
  else ⟨[c]⟩

def escList : List Char → List Char
  | [] => []
  | c :: cs => (escChar c).data ++ escList cs

/-- Python json escaping of a whole string (without the enclosing quotes). -/
def esc (s : String) : String := ⟨escList s.data⟩

/-- json rendering of one scalar value. -/
def dumpScalar : JScalar → String
  | .jint n => Nat.repr n
  | .jstr s => "\"" ++ esc s ++ "\""
  | .jbool b => if b then "true" else "false"

/-- The key/value pairs of one record dict of `create_test_files.py`, in
insertion order (Python 3.7+ dicts preserve it). -/
def recordPairs (r : Record) : List (String × JScalar) :=
  [("id", .jint r.id), ("name", .jstr r.name), ("age", .jint r.age),
   ("salary", .jint r.salary), ("department", .jstr r.department),
   ("is_active", .jbool r.is_active), ("join_date", .jstr r.join_date)]

/-- One key/value pair as rendered by `json.dumps` (default and indented modes
both use the item separator `": "`). -/
def dumpPair (p : String × JScalar) : String :=
  "\"" ++ esc p.1 ++ "\": " ++ dumpScalar p.2

/-- `json.dumps(record)`: a compact object with default separators `, `/`: `. -/
def dumpsRecord (r : Record) : String :=
  "\x7b" ++ joinSep ", " ((recordPairs r).map dumpPair) ++ "\x7d"

/-- Text written to test-files/sample.jsonl by `create_test_files.py`,
lines 34-40: `json.dumps(record) + '\n'` per record, in order. -/
def jsonlContent (data : List Record) : String :=
  data.foldl (fun acc r => acc ++ (dumpsRecord r ++ "\n")) ""

/-- Text written to test-files/sample.ndjson by `create_test_files.py`,
lines 43-49: `json.dumps(record) + '\n'` per record, in order. -/
def ndjsonContent (data : List Record) : String :=
  data.foldl (fun acc r => acc ++ (dumpsRecord r ++ "\n")) ""

/-- One pair inside an object of `json.dump(..., indent=2)`: the pair sits at
nesting depth 2, hence four spaces of indentation. -/
def dumpPairInd (p : String × JScalar) : String := "    " ++ dumpPair p

/-- `json.dump(..., indent=2)` rendering of one flat object at nesting
depth 1 inside the top-level array. -/
def dumpObjInd (ps : List (String × JScalar)) : String :=
  if ps.isEmpty then "\x7b\x7d"
  else "\x7b\n" ++ joinSep ",\n" (ps.map dumpPairInd) ++ "\n  \x7d"

/-- `json.dump(objs, f, indent=2)` for a top-level array of flat objects,
which is exactly the shape `create_test_files.py` serializes. -/
def dumpFile (objs : List (List (String × JScalar))) : String :=
  if objs.isEmpty then "[]"
  else "[\n" ++ joinSep ",\n" (objs.map fun o => "  " ++ dumpObjInd o) ++ "\n]"

/-- Text written to test-files/sample.json by `create_test_files.py`
(lines 64-66, `json.dump(data, f, indent=2)`). -/
def jsonContent (data : List Record) : String := dumpFile (data.map recordPairs)

/-- The dict serialized per row by the jsonl emitter of
`generate_test_files.py` (lines 38-43): `join_date` is converted to its
isoformat string before dumping. -/
def recordPairsG (r : GRecord) : List (String × JScalar) :=
  [("id", .jint r.id), ("name", .jstr r.name), ("age", .jint r.age),
   ("salary", .jint r.salary), ("department", .jstr r.department),
   ("is_active", .jbool r.is_active),
   ("join_date", .jstr (isoDateTime (addDays epoch r.joinOffset)))]

/-- Text written to test-files/sample.jsonl by `generate_test_files.py`. -/
def genJsonlContent (rows : List GRecord) : String :=
  rows.foldl
    (fun acc r =>
      acc ++ ("\x7b" ++ joinSep ", " ((recordPairsG r).map dumpPair) ++ "\x7d" ++ "\n"))
    ""

/-- Binary parquet payload.  The encoding is not modelled: every claim about
this emitter concerns only its output path and its status reporting. -/
def parquetContent (rows : List GRecord) : String :=
  "(parquet bytes for " ++ Nat.repr rows.length ++ " rows)"

/-- Binary arrow payload; same abstraction as `parquetContent`. -/
def arrowContent (rows : List GRecord) : String :=
  "(arrow bytes for " ++ Nat.repr rows.length ++ " rows)"

/-- Binary avro payload; same abstraction as `parquetContent`. -/
def avroContent (rows : List GRecord) : String :=
  "(avro bytes for " ++ Nat.repr rows.length ++ " rows)"

/-! ## Filesystem and script runs

The scripts' effects are a directory creation plus one file write per
emitter, each emitter wrapped in its own try/except.  Whether an emitter body
raises is decided by an oracle `Env`; a raised Python exception carries a flag
saying whether it is an `ImportError`. -/

/-- A raised Python exception (an `Exception` subclass, which is what the
emitter bodies can raise and what both scripts catch). -/
structure PyExc where
  isImportError : Bool
  msg : String
deriving DecidableEq

/-- Flat model of the working tree: known directories and file contents. -/
structure FS where
  dirs : List String
  files : String → Option String

/-- Writing a file touches exactly its own path. -/
def writeFile (fs : FS) (p c : String) : FS :=
  { fs with files := fun q => if q = p then some c else fs.files q }

/-- `os.makedirs(d, exist_ok=True)`. -/
def makedirs (fs : FS) (d : String) : FS :=
  if d ∈ fs.dirs then fs else { fs with dirs := d :: fs.dirs }

/-- Console status of one emitter: the success, failure and skip lines. -/
inductive EmitStatus where
  | ok : EmitStatus
  | failed : String → EmitStatus
  | skipped : String → EmitStatus
deriving DecidableEq

/-- Oracle: for each emitter index, whether its body raises and what. -/
def Env : Type := Nat → Option PyExc

/-- A `try: write / except Exception: report` block, as used by every emitter
of `create_test_files.py` and the first three of `generate_test_files.py`. -/
def runEmitter (fs : FS) (path content : String) (oracle : Option PyExc) :
    FS × EmitStatus :=
  match oracle with
  | none => (writeFile fs path content, .ok)
  | some e => (fs, .failed e.msg)

/-- A `try: import lib; write / except ImportError: skip / except Exception:
report` block, as used by the arrow and avro emitters of
`generate_test_files.py`. -/
def runEmitterImp (fs : FS) (path content : String) (oracle : Option PyExc) :
    FS × EmitStatus :=
  match oracle with
  | none => (writeFile fs path content, .ok)
  | some e => if e.isImportError then (fs, .skipped e.msg) else (fs, .failed e.msg)

/-- The whole run of `create_test_files.py`: makedirs, build the data, run the
four emitters in order, exit 0. -/
def runCreate (g : Nat → Draw) (env : Env) (fs0 : FS) :
    FS × List EmitStatus × Nat :=
  let fs1 := makedirs fs0 "test-files"
  let data := createData g
  let r1 := runEmitter fs1 "test-files/sample.jsonl" (jsonlContent data) (env 0)
  let r2 := runEmitter r1.1 "test-files/sample.ndjson" (ndjsonContent data) (env 1)
  let r3 := runEmitter r2.1 "test-files/sample.csv" (csvContent data) (env 2)
  let r4 := runEmitter r3.1 "test-files/sample.json" (jsonContent data) (env 3)
  (r4.1, [r1.2, r2.2, r3.2, r4.2], 0)

/-- The whole run of `generate_test_files.py`: makedirs, build the frame, run
the five emitters in order (only arrow and avro special-case ImportError),
exit 0. -/
def runGenerate (g : Nat → Draw) (env : Env) (fs0 : FS) :
    FS × List EmitStatus × Nat :=
  let fs1 := makedirs fs0 "test-files"
  let rows := genData g
  let r1 := runEmitter fs1 "test-files/sample.parquet" (parquetContent rows) (env 0)
  let r2 := runEmitter r1.1 "test-files/sample.jsonl" (genJsonlContent rows) (env 1)
  let r3 := runEmitter r2.1 "test-files/sample.csv" (genCsvContent rows) (env 2)
  let r4 := runEmitterImp r3.1 "test-files/sample.arrow" (arrowContent rows) (env 3)
  let r5 := runEmitterImp r4.1 "test-files/sample.avro" (avroContent rows) (env 4)
  (r5.1, [r1.2, r2.2, r3.2, r4.2, r5.2], 0)

/-- The output paths `create_test_files.py` writes. -/
def createPaths : List String :=
  ["test-files/sample.jsonl", "test-files/sample.ndjson",
   "test-files/sample.csv", "test-files/sample.json"]

/-- The output paths `generate_test_files.py` writes. -/
def genPaths : List String :=
  ["test-files/sample.parquet", "test-files/sample.jsonl",
   "test-files/sample.csv", "test-files/sample.arrow",
   "test-files/sample.avro"]

/-! ## JSON parsing

Modelled from the documented behavior of Python `json.loads`, restricted to
the grammar `json.dump(data, f, indent=2)` emits for this program: an array
of flat objects whose values are nonnegative integers, escape-free strings
and booleans.  `json.loads` agrees with this parser on every such document. -/

def isWs (c : Char) : Bool := c = ' ' || c = '\n' || c = '\t' || c = '\r'

def skipWs : List Char → List Char
  | [] => []
  | c :: cs => if isWs c then skipWs cs else c :: cs

/-- Read a maximal run of decimal digits, most significant first. -/
def readNatAux (acc : Nat) : List Char → Nat × List Char
  | [] => (acc, [])
  | c :: cs =>
    if c.isDigit then readNatAux (acc * 10 + charVal c) cs else (acc, c :: cs)

/-- Read a string body up to the closing quote (the emitted strings of this
program contain no escapes). -/
def readStrAux (acc : List Char) : List Char → Option (String × List Char)
  | [] => none
  | c :: cs =>
    if c = '"' then some (⟨acc.reverse⟩, cs)
    else if c = '\\' then none
    else readStrAux (c :: acc) cs

/-- Parse one scalar value. -/
def parseScalar : List Char → Option (JScalar × List Char)
  | [] => none
  | c :: cs =>
    if c = '"' then (readStrAux [] cs).map fun p => (JScalar.jstr p.1, p.2)
    else if c.isDigit then
      let p := readNatAux (charVal c) cs
      some (JScalar.jint p.1, p.2)
    else if c = 't' then
      match cs with
      | 'r' :: 'u' :: 'e' :: r => some (JScalar.jbool true, r)
      | _ => none
    else if c = 'f' then
      match cs with
      | 'a' :: 'l' :: 's' :: 'e' :: r => some (JScalar.jbool false, r)
      | _ => none
    else none

/-- Parse an object key: a quoted string after optional whitespace. -/
def parseKey (cs : List Char) : Option (String × List Char) :=
  match skipWs cs with
  | '"' :: cs1 => readStrAux [] cs1
  | _ => none

/-- Parse the colon between a key and its value. -/
def parseColon (cs : List Char) : Option (List Char) :=
  match skipWs cs with
  | ':' :: cs3 => some cs3
  | _ => none

/-- Parse one `"key": value` pair, leading whitespace allowed. -/
def parsePair (cs : List Char) : Option ((String × JScalar) × List Char) :=
  (parseKey cs).bind fun kc =>
    (parseColon kc.2).bind fun cs3 =>
      (parseScalar (skipWs cs3)).map fun vc => ((kc.1, vc.1), vc.2)

/-- After one parsed pair: consume `, pair` repetitions up to the closing
brace.  Fuel only bounds the number of iterations. -/
def parsePairsRest (fuel : Nat) (acc : List (String × JScalar))
    (cs : List Char) : Option (List (String × JScalar) × List Char) :=
  match fuel with
  | 0 => none
  | fuel + 1 =>
    match skipWs cs with
    | '\x7d' :: r => some (acc.reverse, r)
    | ',' :: r =>
      (parsePair r).bind fun pc => parsePairsRest fuel (pc.1 :: acc) pc.2
    | _ => none

/-- Parse an object body (the characters after its opening brace). -/
def parseObj (fuel : Nat) (cs : List Char) :
    Option (List (String × JScalar) × List Char) :=
  match skipWs cs with
  | '\x7d' :: r => some ([], r)
  | _ => (parsePair cs).bind fun pc => parsePairsRest fuel [pc.1] pc.2

/-- Parse one array element: an object after optional whitespace. -/
def parseArrItem (fuel : Nat) (cs : List Char) :
    Option (List (String × JScalar) × List Char) :=
  match skipWs cs with
  | '\x7b' :: r2 => parseObj fuel r2
  | _ => none

/-- After one parsed object: consume `, object` repetitions up to the closing
bracket. -/
def parseObjsRest (fuel : Nat) (acc : List (List (String × JScalar)))
    (cs : List Char) : Option (List (List (String × JScalar)) × List Char) :=
  match fuel with
  | 0 => none
  | fuel + 1 =>
    match skipWs cs with
    | ']' :: r => some (acc.reverse, r)
    | ',' :: r =>
      (parseArrItem fuel r).bind fun oc => parseObjsRest fuel (oc.1 :: acc) oc.2
    | _ => none

/-- Parse the remainder of a document after the opening bracket: an empty
array, or a first object followed by the element loop, then trailing
whitespace only. -/
def parseTop (fuel : Nat) (cs : List Char) :
    Option (List (List (String × JScalar))) :=
  match skipWs cs with
  | ']' :: r2 => if (skipWs r2).isEmpty then some [] else none
  | '\x7b' :: r2 =>
    (parseObj fuel r2).bind fun oc =>
      (parseObjsRest fuel [oc.1] oc.2).bind fun osc =>
        if (skipWs osc.2).isEmpty then some osc.1 else none
  | _ => none

/-- Parse a whole document of the emitted shape: a single array of flat
objects, possibly surrounded by whitespace. -/
def parseFile (s : String) : Option (List (List (String × JScalar))) :=
  match skipWs s.data with
  | '[' :: r => parseTop s.data.length r
  | _ => none

/-- True when the list does not start with a decimal digit (so a maximal
digit run ending just before it is read back unchanged). -/
def noDigitHead : List Char → Bool
  | [] => true
  | c :: _ => !c.isDigit

/-- Strings whose json rendering is escape-free: printable ASCII without
quote or backslash.  Every string this program serializes satisfies it. -/
def goodStr (s : String) : Prop :=
  ∀ c ∈ s.data, 32 ≤ c.toNat ∧ c.toNat ≤ 126 ∧ c ≠ '"' ∧ c ≠ '\\'

/-- Wellformedness of a serialized scalar. -/
def wfScalar : JScalar → Prop
  | .jstr s => goodStr s
  | _ => True

/-- Wellformedness of one serialized key/value pair. -/
def wfPair (p : String × JScalar) : Prop := goodStr p.1 ∧ wfScalar p.2

/-- The characters of the 2nd, 3rd, ... pairs of an indented object,
each preceded by its `,\n` separator. -/
def sepPairsChars : List (String × JScalar) → List Char
  | [] => []
  | p :: ps => ',' :: '\n' :: ((dumpPairInd p).data ++ sepPairsChars ps)

/-- The characters of an indented nonempty object after its opening brace. -/
def objBodyChars (ps : List (String × JScalar)) : List Char :=
  '\n' :: ((joinSep ",\n" (ps.map dumpPairInd)).data ++
    '\n' :: ' ' :: ' ' :: '\x7d' :: [])

/-- The characters of the 2nd, 3rd, ... objects of the indented top-level
array, each preceded by its `,\n` separator and its two-space indent. -/
def sepObjsChars : List (List (String × JScalar)) → List Char
  | [] => []
  | o :: os => ',' :: '\n' :: ' ' :: ' ' :: ((dumpObjInd o).data ++ sepObjsChars os)

/-- Total number of parse steps needed for a list of objects: one per object
plus one per pair. -/
def pairsCount : List (List (String × JScalar)) → Nat
  | [] => 0
  | o :: os => o.length + 1 + pairsCount os

/-! ## Theorems -/

/-- C1: both builders produce `id` values exactly `1..100`, in order,
with no gaps and no duplicates. -/
theorem ids_exactly_one_to_n (g : Nat → Draw) :
    (createData g).map Record.id = List.range' 1 100 ∧
    (genData g).map GRecord.id = List.range' 1 100 ∧
    ((createData g).map Record.id).Nodup := by
  refine ⟨?_, ?_, ?_⟩
  · simp [createData, List.map_map, Function.comp_def, mkRecord]
  · simp [genData, List.map_map, Function.comp_def, mkGRecord]
  · simp [createData, List.map_map, Function.comp_def, mkRecord]
    exact List.nodup_range' 1 100

/-- C2 counterexample: the claim asserts that in both scripts `age` is drawn
from the inclusive range `[18, 80]`; but in `generate_test_files.py` the call
`np.random.randint(18, 80)` excludes the high end, so the value 80 is not a
possible outcome there. -/
theorem age_inclusive_counterexample :
    ¬ (∀ v, 18 ≤ v → v ≤ 80 → ∃ s, npRandint 18 80 s = v) := by
  intro h
  obtain ⟨s, hs⟩ := h 80 (by omega) (by omega)
  have hlt : s % 62 < 62 := Nat.mod_lt _ (by omega)
  simp only [npRandint] at hs
  omega

/-- C2 amended: in `create_test_files.py`, `random.randint` draws `age` from
the inclusive range `[18, 80]` and `salary` from `[30000, 150000]`, every
value in range being reachable; in `generate_test_files.py`,
`np.random.randint` excludes the high endpoint, so `age` lies in `[18, 79]`
and `salary` in `[30000, 149999]`, again with every such value reachable. -/
theorem age_salary_ranges_amended (g : Nat → Draw) :
    (∀ r ∈ createData g,
      18 ≤ r.age ∧ r.age ≤ 80 ∧ 30000 ≤ r.salary ∧ r.salary ≤ 150000) ∧
    (∀ r ∈ genData g,
      18 ≤ r.age ∧ r.age ≤ 79 ∧ 30000 ≤ r.salary ∧ r.salary ≤ 149999) ∧
    (∀ v, 18 ≤ v → v ≤ 80 → ∃ s, pyRandint 18 80 s = v) ∧
    (∀ v, 30000 ≤ v → v ≤ 150000 → ∃ s, pyRandint 30000 150000 s = v) ∧
    (∀ v, 18 ≤ v → v ≤ 79 → ∃ s, npRandint 18 80 s = v) ∧
    (∀ v, 30000 ≤ v → v ≤ 149999 → ∃ s, npRandint 30000 150000 s = v) := by
  refine ⟨?_, ?_, ?_, ?_, ?_, ?_⟩
  · intro r hr
    simp only [createData, List.mem_map] at hr
    obtain ⟨i, _, rfl⟩ := hr
    have h1 : (g i).ageS % 63 < 63 := Nat.mod_lt _ (by omega)
    have h2 : (g i).salaryS % 120001 < 120001 := Nat.mod_lt _ (by omega)
    simp only [mkRecord, pyRandint]
    omega
  · intro r hr
    simp only [genData, List.mem_map] at hr
    obtain ⟨i, _, rfl⟩ := hr
    have h1 : (g i).ageS % 62 < 62 := Nat.mod_lt _ (by omega)
    have h2 : (g i).salaryS % 120000 < 120000 := Nat.mod_lt _ (by omega)
    simp only [mkGRecord, npRandint]
    omega
  · intro v h1 h2
    exact ⟨v - 18, by simp only [pyRandint]; rw [Nat.mod_eq_of_lt (by omega)]; omega⟩
  · intro v h1 h2
    exact ⟨v - 30000, by simp only [pyRandint]; rw [Nat.mod_eq_of_lt (by omega)]; omega⟩
  · intro v h1 h2
    exact ⟨v - 18, by simp only [npRandint]; rw [Nat.mod_eq_of_lt (by omega)]; omega⟩
  · intro v h1 h2
    exact ⟨v - 30000, by simp only [npRandint]; rw [Nat.mod_eq_of_lt (by omega)]; omega⟩

/-- C2 witness: the amended theorem applied at a concrete record and at the
extreme reachable values of each range. -/
theorem age_salary_ranges_amended_witness :
    (18 ≤ (mkRecord 1 dZero).age ∧ (mkRecord 1 dZero).age ≤ 80 ∧
      30000 ≤ (mkRecord 1 dZero).salary ∧ (mkRecord 1 dZero).salary ≤ 150000) ∧
    (∃ s, pyRandint 18 80 s = 80) ∧ (∃ s, pyRandint 30000 150000 s = 150000) ∧
    (∃ s, npRandint 18 80 s = 79) ∧ (∃ s, npRandint 30000 150000 s = 149999) := by
  have h := age_salary_ranges_amended gZero
  refine ⟨h.1 (mkRecord 1 dZero) ?_, h.2.2.1 80 (by omega) (by omega),
    h.2.2.2.1 150000 (by omega) (by omega), h.2.2.2.2.1 79 (by omega) (by omega),
    h.2.2.2.2.2 149999 (by omega) (by omega)⟩
  simp only [createData, List.mem_map]
  exact ⟨1, by decide, rfl⟩

/-- C3 counterexample: the claim asserts record #1 of both scripts has
`join_date` one day after the epoch (2020-01-02); but
`pd.date_range('2020-01-01', periods=100, freq='D')` in
`generate_test_files.py` starts at the epoch itself, so row #1 has
`join_date` 2020-01-01. -/
theorem join_date_counterexample :
    ((genData gZero).head?.map fun r => isoDate (addDays epoch r.joinOffset))
      = some "2020-01-01" ∧ "2020-01-01" ≠ "2020-01-02" := by
  constructor
  · have h : (genData gZero).head? = some (mkGRecord 1 (gZero 1)) := rfl
    rw [h]
    show some (isoDate (addDays epoch 0)) = some "2020-01-01"
    decide
  · decide

/-- C3 amended: in `create_test_files.py` the record at 0-based position `i`
has `join_date` equal to the epoch plus `i + 1` days (so record #1 falls on
2020-01-02), while in `generate_test_files.py` the row at position `i` sits
`i` days after the epoch (so row #1 falls on 2020-01-01 itself); in both
scripts the dates are sequential one-day offsets from 2020-01-01. -/
theorem join_date_amended (g : Nat → Draw) :
    (∀ (i : Nat) (r : Record), (createData g)[i]? = some r →
      r.join_date = isoDateTime (addDays epoch (i + 1))) ∧
    (∀ (i : Nat) (r : GRecord), (genData g)[i]? = some r → r.joinOffset = i) ∧
    (createData g).head?.map Record.join_date = some "2020-01-02T00:00:00" ∧
    ((genData g).head?.map fun r => isoDate (addDays epoch r.joinOffset))
      = some "2020-01-01" := by
  refine ⟨?_, ?_, ?_, ?_⟩
  · intro i r hr
    simp only [createData, List.getElem?_map] at hr
    have hi : i < 100 := by
      by_contra hge
      rw [List.getElem?_eq_none (by simpa using Nat.le_of_not_lt hge),
        Option.map_none'] at hr
      exact Option.noConfusion hr
    rw [List.getElem?_range' 1 1 hi, Option.map_some'] at hr
    cases hr
    simp only [mkRecord]
    congr 2
    omega
  · intro i r hr
    simp only [genData, List.getElem?_map] at hr
    have hi : i < 100 := by
      by_contra hge
      rw [List.getElem?_eq_none (by simpa using Nat.le_of_not_lt hge),
        Option.map_none'] at hr
      exact Option.noConfusion hr
    rw [List.getElem?_range' 1 1 hi, Option.map_some'] at hr
    cases hr
    simp only [mkGRecord]
    omega
  · have h : (createData g).head? = some (mkRecord 1 (g 1)) := rfl
    rw [h]
    show some (isoDateTime (addDays epoch 1)) = some "2020-01-02T00:00:00"
    decide
  · have h : (genData g).head? = some (mkGRecord 1 (g 1)) := rfl
    rw [h]
    show some (isoDate (addDays epoch 0)) = some "2020-01-01"
    decide

/-- C3 witness: the amended theorem applied at position 0 of both datasets. -/
theorem join_date_amended_witness :
    (mkRecord 1 (gZero 1)).join_date = isoDateTime (addDays epoch 1) ∧
    (mkGRecord 1 (gZero 1)).joinOffset = 0 := by
  exact ⟨(join_date_amended gZero).1 0 (mkRecord 1 (gZero 1)) rfl,
    (join_date_amended gZero).2.1 0 (mkGRecord 1 (gZero 1)) rfl⟩

/-- C9: for the same record list, the jsonl and ndjson emitters of
`create_test_files.py` serialize identically (`json.dumps(record) + '\n'`
per record, same order), so the two files hold identical bytes. -/
theorem jsonl_ndjson_identical (data : List Record) :
    jsonlContent data = ndjsonContent data := rfl

/-- An exception raised while a needed serialization library is missing. -/
def importErr : PyExc := ⟨true, "No module named pyarrow"⟩

/-- An ordinary (non-import) emitter failure. -/
def boomErr : PyExc := ⟨false, "disk full"⟩

/-- Oracle making only the parquet emitter raise an ImportError. -/
def envParquetMissing : Env := fun k => if k = 0 then some importErr else none

/-- Oracle making the arrow and avro emitters raise ImportErrors. -/
def envImportMissing : Env := fun k => if k ≤ 2 then none else some importErr

/-- Oracle making only the first emitter raise an ordinary failure. -/
def envBoom : Env := fun k => if k = 0 then some boomErr else none

/-- Oracle where no emitter body raises. -/
def envNone : Env := fun _ => none

/-- An empty working tree. -/
def fsEmpty : FS := ⟨[], fun _ => none⟩

/-- A tree already holding an unrelated file inside test-files/. -/
def fsNotes : FS :=
  ⟨["test-files"],
   fun q => if q = "test-files/notes.txt" then some "keep" else none⟩

/-- C4 counterexample: when the parquet library is unavailable, the parquet
emitter of `generate_test_files.py` reports a failure line, not the distinct
skipped status: its `except Exception` clause catches the ImportError
uniformly (lines 30-34 have no ImportError branch). -/
theorem parquet_skip_counterexample :
    (runGenerate gZero envParquetMissing fsEmpty).2.1[0]? =
      some (EmitStatus.failed "No module named pyarrow") ∧
    EmitStatus.failed "No module named pyarrow" ≠
      EmitStatus.skipped "No module named pyarrow" := by
  exact ⟨rfl, by decide⟩

/-- C4 amended: of the three emitters that need an optional serialization
library, only arrow and avro report the distinct skipped status when the
library is unavailable (their blocks catch ImportError separately); the
parquet emitter reports an ordinary failure status instead. -/
theorem dependency_skip_amended (g : Nat → Draw) (env : Env) (fs : FS) :
    (∀ e : PyExc, env 3 = some e → e.isImportError = true →
      (runGenerate g env fs).2.1[3]? = some (.skipped e.msg)) ∧
    (∀ e : PyExc, env 4 = some e → e.isImportError = true →
      (runGenerate g env fs).2.1[4]? = some (.skipped e.msg)) ∧
    (∀ e : PyExc, env 0 = some e →
      (runGenerate g env fs).2.1[0]? = some (.failed e.msg)) := by
  refine ⟨?_, ?_, ?_⟩
  · intro e he hi
    simp [runGenerate, runEmitterImp, he, hi]
  · intro e he hi
    simp [runGenerate, runEmitterImp, he, hi]
  · intro e he
    simp [runGenerate, runEmitter, he]

/-- C4 witness: the amended theorem applied to a run where the arrow and avro
libraries are missing. -/
theorem dependency_skip_amended_witness :
    (runGenerate gZero envImportMissing fsEmpty).2.1[3]? =
      some (EmitStatus.skipped "No module named pyarrow") ∧
    (runGenerate gZero envImportMissing fsEmpty).2.1[4]? =
      some (EmitStatus.skipped "No module named pyarrow") := by
  have h := dependency_skip_amended gZero envImportMissing fsEmpty
  exact ⟨h.1 importErr rfl rfl, h.2.1 importErr rfl rfl⟩

/-- C5: in both scripts every emitter failure is caught inside its own block
and turned into a reported status, every sibling emitter still runs and
reports, and the run ends with exit status 0 whatever the oracle raises. -/
theorem best_effort_fanout (g : Nat → Draw) (env : Env) (fs : FS) :
    (runCreate g env fs).2.2 = 0 ∧
    (runCreate g env fs).2.1.length = 4 ∧
    (runGenerate g env fs).2.2 = 0 ∧
    (runGenerate g env fs).2.1.length = 5 ∧
    (∀ k, k < 4 → ∀ e : PyExc, env k = some e →
      (runCreate g env fs).2.1[k]? = some (.failed e.msg)) ∧
    (∀ k, k < 4 → env k = none →
      (runCreate g env fs).2.1[k]? = some .ok) ∧
    (∀ k, k < 5 → ∀ e : PyExc, env k = some e →
      (runGenerate g env fs).2.1[k]? = some (.failed e.msg) ∨
      (runGenerate g env fs).2.1[k]? = some (.skipped e.msg)) ∧
    (∀ k, k < 5 → env k = none →
      (runGenerate g env fs).2.1[k]? = some .ok) := by
  refine ⟨rfl, rfl, rfl, rfl, ?_, ?_, ?_, ?_⟩
  · intro k hk e he
    interval_cases k <;> simp [runCreate, runEmitter, he]
  · intro k hk he
    interval_cases k <;> simp [runCreate, runEmitter, he]
  · intro k hk e he
    interval_cases k
    · left; simp [runGenerate, runEmitter, he]
    · left; simp [runGenerate, runEmitter, he]
    · left; simp [runGenerate, runEmitter, he]
    · cases hi : e.isImportError
      · left; simp [runGenerate, runEmitterImp, he, hi]
      · right; simp [runGenerate, runEmitterImp, he, hi]
    · cases hi : e.isImportError
      · left; simp [runGenerate, runEmitterImp, he, hi]
      · right; simp [runGenerate, runEmitterImp, he, hi]
  · intro k hk he
    interval_cases k <;>
      simp [runGenerate, runEmitter, runEmitterImp, he]

/-- C5 witness: a run whose first emitter raises still reports the other
emitters and exits 0. -/
theorem best_effort_fanout_witness :
    (runCreate gZero envBoom fsEmpty).2.2 = 0 ∧
    (runCreate gZero envBoom fsEmpty).2.1[0]? =
      some (EmitStatus.failed "disk full") ∧
    (runCreate gZero envBoom fsEmpty).2.1[1]? = some EmitStatus.ok := by
  have h := best_effort_fanout gZero envBoom fsEmpty
  exact ⟨h.1, h.2.2.2.2.1 0 (by omega) boomErr rfl, h.2.2.2.2.2.1 1 (by omega) rfl⟩

/-- A successful or failed emitter block only ever touches its own output
path. -/
theorem runEmitter_files (fs : FS) (path content p : String)
    (o : Option PyExc) (h : p ≠ path) :
    ((runEmitter fs path content o).1).files p = fs.files p := by
  cases o <;> simp [runEmitter, writeFile, h]

/-- Same frame property for the import-aware emitter blocks. -/
theorem runEmitterImp_files (fs : FS) (path content p : String)
    (o : Option PyExc) (h : p ≠ path) :
    ((runEmitterImp fs path content o).1).files p = fs.files p := by
  cases o with
  | none => simp [runEmitterImp, writeFile, h]
  | some e => by_cases hi : e.isImportError <;> simp [runEmitterImp, hi]

/-- Emitter blocks never change the directory set. -/
theorem runEmitter_dirs (fs : FS) (path content : String) (o : Option PyExc) :
    ((runEmitter fs path content o).1).dirs = fs.dirs := by
  cases o <;> rfl

/-- Import-aware emitter blocks never change the directory set. -/
theorem runEmitterImp_dirs (fs : FS) (path content : String) (o : Option PyExc) :
    ((runEmitterImp fs path content o).1).dirs = fs.dirs := by
  cases o with
  | none => rfl
  | some e => by_cases hi : e.isImportError <;> simp [runEmitterImp, hi]

/-- Directory creation leaves every file untouched. -/
theorem makedirs_files (fs : FS) (d : String) : (makedirs fs d).files = fs.files := by
  unfold makedirs; split <;> rfl

/-- After `os.makedirs(d, exist_ok=True)` the directory exists. -/
theorem makedirs_mem (fs : FS) (d : String) : d ∈ (makedirs fs d).dirs := by
  unfold makedirs; split
  · assumption
  · exact List.mem_cons_self d fs.dirs

/-- C8: each run creates test-files/ when absent (and keeps it when present),
and a path that is none of the run's sample.* outputs has exactly the content
it had before the run, whatever the oracle makes the emitters do. -/
theorem output_dir_and_frame (g : Nat → Draw) (env : Env) (fs : FS) (p : String) :
    "test-files" ∈ (runCreate g env fs).1.dirs ∧
    "test-files" ∈ (runGenerate g env fs).1.dirs ∧
    (p ∉ createPaths → (runCreate g env fs).1.files p = fs.files p) ∧
    (p ∉ genPaths → (runGenerate g env fs).1.files p = fs.files p) := by
  refine ⟨?_, ?_, ?_, ?_⟩
  · simp only [runCreate]
    rw [runEmitter_dirs, runEmitter_dirs, runEmitter_dirs, runEmitter_dirs]
    exact makedirs_mem fs "test-files"
  · simp only [runGenerate]
    rw [runEmitterImp_dirs, runEmitterImp_dirs, runEmitter_dirs,
      runEmitter_dirs, runEmitter_dirs]
    exact makedirs_mem fs "test-files"
  · intro hp
    simp only [createPaths, List.mem_cons, List.not_mem_nil, or_false,
      not_or] at hp
    obtain ⟨h1, h2, h3, h4⟩ := hp
    simp only [runCreate]
    rw [runEmitter_files _ _ _ _ _ h4, runEmitter_files _ _ _ _ _ h3,
      runEmitter_files _ _ _ _ _ h2, runEmitter_files _ _ _ _ _ h1,
      makedirs_files]
  · intro hp
    simp only [genPaths, List.mem_cons, List.not_mem_nil, or_false,
      not_or] at hp
    obtain ⟨h1, h2, h3, h4, h5⟩ := hp
    simp only [runGenerate]
    rw [runEmitterImp_files _ _ _ _ _ h5, runEmitterImp_files _ _ _ _ _ h4,
      runEmitter_files _ _ _ _ _ h3, runEmitter_files _ _ _ _ _ h2,
      runEmitter_files _ _ _ _ _ h1, makedirs_files]

/-- C8 witness: a run over a tree holding an unrelated file inside
test-files/ leaves that file exactly as it was. -/
theorem output_dir_and_frame_witness :
    "test-files" ∈ (runCreate gZero envNone fsNotes).1.dirs ∧
    (runCreate gZero envNone fsNotes).1.files "test-files/notes.txt" =
      some "keep" ∧
    (runGenerate gZero envNone fsNotes).1.files "test-files/notes.txt" =
      some "keep" := by
  have h := output_dir_and_frame gZero envNone fsNotes "test-files/notes.txt"
  refine ⟨h.1, ?_, ?_⟩
  · rw [h.2.2.1 (by decide)]; rfl
  · rw [h.2.2.2 (by decide)]; rfl

/-! ### Decimal rendering -/

/-- Unfolding of `decDigits` on one-digit numbers. -/
theorem decDigits_lt (n : Nat) (h : n < 10) : decDigits n = [Nat.digitChar n] := by
  unfold decDigits
  simp [h]

/-- Unfolding of `decDigits` on larger numbers. -/
theorem decDigits_ge (n : Nat) (h : ¬ n < 10) :
    decDigits n = decDigits (n / 10) ++ [Nat.digitChar (n % 10)] := by
  conv_lhs => unfold decDigits
  simp [h]

/-- Core `Nat.toDigitsCore` agrees with `decDigits` when given enough fuel. -/
theorem toDigitsCore_eq_decDigits :
    ∀ (fuel n : Nat) (ds : List Char), n < fuel →
      Nat.toDigitsCore 10 fuel n ds = decDigits n ++ ds := by
  intro fuel
  induction fuel with
  | zero => intro n ds h; omega
  | succ fuel ih =>
    intro n ds _h
    by_cases h10 : n / 10 = 0
    · have hn : n < 10 := by omega
      unfold Nat.toDigitsCore
      rw [decDigits_lt n hn]
      simp [h10, Nat.mod_eq_of_lt hn]
    · have hn : ¬ n < 10 := by omega
      have hlt : n / 10 < fuel := by
        have hd : n / 10 < n := Nat.div_lt_self (by omega) (by omega)
        omega
      unfold Nat.toDigitsCore
      simp only [h10, if_false]
      rw [ih (n / 10) (Nat.digitChar (n % 10) :: ds) hlt, decDigits_ge n hn]
      simp

/-- The characters of `Nat.repr n` are `decDigits n`. -/
theorem repr_data_eq_decDigits (n : Nat) : (Nat.repr n).data = decDigits n := by
  show (Nat.toDigits 10 n).asString.data = decDigits n
  unfold Nat.toDigits
  rw [toDigitsCore_eq_decDigits (n + 1) n [] (Nat.lt_succ_self n)]
  simp [List.asString]

/-- Decimal digit characters are digits. -/
theorem digitChar_isDigit : ∀ d, d < 10 → (Nat.digitChar d).isDigit = true := by
  decide

/-- Value of a decimal digit character. -/
theorem digitChar_val : ∀ d, d < 10 → charVal (Nat.digitChar d) = d := by
  decide

/-- Every character of `decDigits` is a digit. -/
theorem decDigits_digit (n : Nat) : ∀ c ∈ decDigits n, c.isDigit = true := by
  induction n using Nat.strong_induction_on with
  | _ n ih =>
    by_cases h : n < 10
    · rw [decDigits_lt n h]
      intro c hc
      simp only [List.mem_singleton] at hc
      subst hc
      exact digitChar_isDigit n h
    · rw [decDigits_ge n h]
      intro c hc
      rw [List.mem_append] at hc
      rcases hc with hc | hc
      · exact ih (n / 10) (Nat.div_lt_self (by omega) (by omega)) c hc
      · simp only [List.mem_singleton] at hc
        subst hc
        exact digitChar_isDigit _ (Nat.mod_lt _ (by omega))

/-- Every character of `Nat.repr` is a digit. -/
theorem repr_digit (n : Nat) : ∀ c ∈ (Nat.repr n).data, c.isDigit = true := by
  rw [repr_data_eq_decDigits]; exact decDigits_digit n

/-- `decDigits` is never empty. -/
theorem decDigits_ne_nil (n : Nat) : decDigits n ≠ [] := by
  by_cases h : n < 10
  · rw [decDigits_lt n h]; simp
  · rw [decDigits_ge n h]; simp

/-- Folding the digit accumulator over `decDigits n` recovers `n`. -/
theorem decDigits_val (n : Nat) :
    ∀ acc, (decDigits n).foldl (fun a c => a * 10 + charVal c) acc =
      acc * 10 ^ (decDigits n).length + n := by
  induction n using Nat.strong_induction_on with
  | _ n ih =>
    intro acc
    by_cases h : n < 10
    · rw [decDigits_lt n h]
      simp [digitChar_val n h]
    · rw [decDigits_ge n h, List.foldl_append]
      simp only [List.foldl_cons, List.foldl_nil]
      rw [ih (n / 10) (Nat.div_lt_self (by omega) (by omega)) acc,
        digitChar_val _ (Nat.mod_lt _ (by omega))]
      rw [List.length_append, List.length_cons, List.length_nil]
      rw [pow_succ]
      have hdm : n / 10 * 10 + n % 10 = n := by omega
      calc (acc * 10 ^ (decDigits (n / 10)).length + n / 10) * 10 + n % 10
          = acc * (10 ^ (decDigits (n / 10)).length * 10) +
            (n / 10 * 10 + n % 10) := by ring
        _ = acc * (10 ^ (decDigits (n / 10)).length * 10) + n := by rw [hdm]

/-- Reading a maximal digit run past a rendered decimal recovers the value. -/
theorem readNatAux_append :
    ∀ (l : List Char) (acc : Nat) (rest : List Char),
      (∀ c ∈ l, c.isDigit = true) → noDigitHead rest = true →
      readNatAux acc (l ++ rest) =
        (l.foldl (fun a c => a * 10 + charVal c) acc, rest) := by
  intro l
  induction l with
  | nil =>
    intro acc rest _ hrest
    cases rest with
    | nil => rfl
    | cons c cs =>
      simp only [noDigitHead, Bool.not_eq_true'] at hrest
      simp [readNatAux, hrest]
  | cons c l ih =>
    intro acc rest hdig hrest
    have hc : c.isDigit = true := hdig c (List.mem_cons_self c l)
    simp only [List.cons_append, readNatAux, hc, if_true, List.foldl_cons]
    exact ih _ rest (fun x hx => hdig x (List.mem_cons_of_mem c hx)) hrest

/-- Parsing the decimal rendering of `n` back yields `n`. -/
theorem readNatAux_repr (n : Nat) (rest : List Char)
    (h : noDigitHead rest = true) :
    readNatAux 0 ((Nat.repr n).data ++ rest) = (n, rest) := by
  rw [repr_data_eq_decDigits,
    readNatAux_append _ 0 rest (decDigits_digit n) h, decDigits_val]
  simp

/-! ### CSV structure -/

/-- A loop appending newline-terminated lines produces exactly those lines. -/
theorem foldl_lines {α : Type} (f : α → String) :
    ∀ (l : List α) (init : String),
      l.foldl (fun acc r => acc ++ (f r ++ "\n")) init =
        init ++ mkLines (l.map f) := by
  intro l
  induction l with
  | nil => intro init; simp [mkLines]
  | cons x l ih =>
    intro init
    simp only [List.foldl_cons, List.map_cons, mkLines]
    rw [ih, String.append_assoc]

/-- The create-script CSV emitter writes the header line, then one line per
record, in order. -/
theorem csvContent_mkLines (data : List Record) :
    csvContent data = mkLines (csvHeader :: data.map csvLine) := by
  unfold csvContent
  rw [foldl_lines]
  simp only [mkLines]

/-- The generate-script CSV emitter writes the header line, then one line per
row, in order. -/
theorem genCsvContent_mkLines (rows : List GRecord) :
    genCsvContent rows = mkLines (csvHeader :: rows.map genCsvLine) := by
  unfold genCsvContent
  rw [foldl_lines]
  simp only [mkLines]

/-- The interpolated f-string is the comma-join of the seven field
renderings. -/
theorem csvLine_joinSep (r : Record) : csvLine r = joinSep "," (csvFields r) := by
  apply String.ext
  simp [csvLine, csvFields, joinSep]

/-- Digits are neither the CSV delimiter nor a line break. -/
theorem isDigit_clean (c : Char) (h : c.isDigit = true) : c ≠ ',' ∧ c ≠ '\n' := by
  constructor <;> rintro rfl <;> revert h <;> decide

/-- Characters of a decimal rendering are clean. -/
theorem clean_repr (n : Nat) : ∀ c ∈ (Nat.repr n).data, c ≠ ',' ∧ c ≠ '\n' :=
  fun c hc => isDigit_clean c (repr_digit n c hc)

/-- Cleanliness is preserved by append. -/
theorem clean_append (s t : String)
    (hs : ∀ c ∈ s.data, c ≠ ',' ∧ c ≠ '\n')
    (ht : ∀ c ∈ t.data, c ≠ ',' ∧ c ≠ '\n') :
    ∀ c ∈ (s ++ t).data, c ≠ ',' ∧ c ≠ '\n' := by
  intro c hc
  rw [String.data_append, List.mem_append] at hc
  rcases hc with hc | hc
  exacts [hs c hc, ht c hc]

/-- Every character of a zero-padded two-digit field is a digit. -/
theorem pad2_digit (n : Nat) : ∀ c ∈ (pad2 n).data, c.isDigit = true := by
  unfold pad2
  split
  · intro c hc
    rw [String.data_append, List.mem_append] at hc
    rcases hc with hc | hc
    · simp only [show ("0" : String).data = ['0'] from rfl,
        List.mem_singleton] at hc
      subst hc; decide
    · exact repr_digit n c hc
  · exact repr_digit n

/-- Characters of a zero-padded field are clean. -/
theorem clean_pad2 (n : Nat) : ∀ c ∈ (pad2 n).data, c ≠ ',' ∧ c ≠ '\n' :=
  fun c hc => isDigit_clean c (pad2_digit n c hc)

/-- The ISO date rendering contains no comma and no newline. -/
theorem isoDate_clean (dt : Date) :
    ∀ c ∈ (isoDate dt).data, c ≠ ',' ∧ c ≠ '\n' := by
  unfold isoDate
  refine clean_append _ _
    (clean_append _ _
      (clean_append _ _
        (clean_append _ _ (clean_repr dt.y) ?_)
        (clean_pad2 dt.m))
      ?_)
    (clean_pad2 dt.d) <;> decide

/-- The ISO timestamp rendering contains no comma and no newline. -/
theorem isoDateTime_clean (dt : Date) :
    ∀ c ∈ (isoDateTime dt).data, c ≠ ',' ∧ c ≠ '\n' := by
  unfold isoDateTime
  refine clean_append _ _ (isoDate_clean dt) ?_
  decide

/-- Every department name is clean. -/
theorem departments_choice_clean (s : Nat) :
    ∀ c ∈ (pyChoice departments s).data, c ≠ ',' ∧ c ≠ '\n' := by
  have h : s % 4 = 0 ∨ s % 4 = 1 ∨ s % 4 = 2 ∨ s % 4 = 3 := by omega
  unfold pyChoice
  have hlen : departments.length = 4 := rfl
  rw [hlen]
  rcases h with h | h | h | h <;> rw [h] <;> decide

/-- Both boolean renderings are clean. -/
theorem pyStr_clean (b : Bool) : ∀ c ∈ (pyStr b).data, c ≠ ',' ∧ c ≠ '\n' := by
  cases b <;> decide

/-- All seven rendered fields of a built record are clean. -/
theorem mkRecord_fields_clean (i : Nat) (dr : Draw) :
    ∀ f ∈ csvFields (mkRecord i dr), ∀ c ∈ f.data, c ≠ ',' ∧ c ≠ '\n' := by
  intro f hf
  simp only [csvFields, List.mem_cons, List.not_mem_nil, or_false] at hf
  rcases hf with rfl | rfl | rfl | rfl | rfl | rfl | rfl
  · exact clean_repr _
  · simp only [mkRecord]
    exact clean_append _ _ (by decide) (clean_repr i)
  · exact clean_repr _
  · exact clean_repr _
  · simp only [mkRecord]
    exact departments_choice_clean _
  · exact pyStr_clean _
  · simp only [mkRecord]
    exact isoDateTime_clean _

/-- Comma-joining clean fields yields a line with one comma per boundary and
no line break. -/
theorem joinSep_clean :
    ∀ (l : List String), (∀ s ∈ l, ∀ c ∈ s.data, c ≠ ',' ∧ c ≠ '\n') →
      (joinSep "," l).data.count ',' = l.length - 1 ∧
      '\n' ∉ (joinSep "," l).data := by
  intro l
  induction l with
  | nil => exact fun _ => ⟨rfl, by simp [joinSep]⟩
  | cons x l ih =>
    intro h
    cases l with
    | nil =>
      have hx := h x (List.mem_cons_self x [])
      constructor
      · show x.data.count ',' = 0
        rw [List.count_eq_zero]
        intro hc
        exact (hx ',' hc).1 rfl
      · simp only [joinSep]
        intro hc
        exact (hx '\n' hc).2 rfl
    | cons y l2 =>
      have hx := h x (List.mem_cons_self x (y :: l2))
      obtain ⟨ih1, ih2⟩ := ih (fun s hs => h s (List.mem_cons_of_mem x hs))
      have hstep : joinSep "," (x :: y :: l2) =
          x ++ "," ++ joinSep "," (y :: l2) := rfl
      constructor
      · rw [hstep, String.data_append, String.data_append,
          List.count_append, List.count_append]
        have hx0 : x.data.count ',' = 0 :=
          List.count_eq_zero.mpr (fun hc => (hx ',' hc).1 rfl)
        have h1 : List.count ',' ([','] : List Char) = 1 := by decide
        rw [hx0, ih1]
        simp only [List.length_cons]
        omega
      · rw [hstep, String.data_append, String.data_append]
        intro hc
        rw [List.mem_append, List.mem_append] at hc
        rcases hc with (hc | hc) | hc
        · exact (hx '\n' hc).2 rfl
        · simp at hc
        · exact ih2 hc

/-- C6: both sample.csv files consist of exactly the header line followed by
one comma-joined line per record in record order, where booleans render as
True/False and join_date renders as an ISO-8601 string (full timestamp in
create_test_files.py, bare date in generate_test_files.py). -/
theorem csv_exact_shape (g : Nat → Draw) :
    csvContent (createData g) = mkLines (csvHeader :: (createData g).map csvLine) ∧
    genCsvContent (genData g) = mkLines (csvHeader :: (genData g).map genCsvLine) ∧
    (∀ r ∈ createData g,
      csvLine r = joinSep ","
        [Nat.repr r.id, r.name, Nat.repr r.age, Nat.repr r.salary,
         r.department, pyStr r.is_active,
         isoDateTime (addDays epoch r.id)]) ∧
    (∀ r ∈ genData g,
      genCsvLine r = joinSep ","
        [Nat.repr r.id, r.name, Nat.repr r.age, Nat.repr r.salary,
         r.department, pyStr r.is_active,
         isoDate (addDays epoch r.joinOffset)]) := by
  refine ⟨csvContent_mkLines _, genCsvContent_mkLines _, ?_, ?_⟩
  · intro r hr
    simp only [createData, List.mem_map] at hr
    obtain ⟨i, _, rfl⟩ := hr
    rw [csvLine_joinSep]
    rfl
  · intro r hr
    apply String.ext
    simp [genCsvLine, joinSep]

/-- C6 witness: the format theorem applied to the first generated record of
each script. -/
theorem csv_exact_shape_witness :
    csvLine (mkRecord 1 (gZero 1)) = joinSep ","
      [Nat.repr (mkRecord 1 (gZero 1)).id, (mkRecord 1 (gZero 1)).name,
       Nat.repr (mkRecord 1 (gZero 1)).age, Nat.repr (mkRecord 1 (gZero 1)).salary,
       (mkRecord 1 (gZero 1)).department, pyStr (mkRecord 1 (gZero 1)).is_active,
       isoDateTime (addDays epoch (mkRecord 1 (gZero 1)).id)] ∧
    genCsvLine (mkGRecord 1 (gZero 1)) = joinSep ","
      [Nat.repr (mkGRecord 1 (gZero 1)).id, (mkGRecord 1 (gZero 1)).name,
       Nat.repr (mkGRecord 1 (gZero 1)).age, Nat.repr (mkGRecord 1 (gZero 1)).salary,
       (mkGRecord 1 (gZero 1)).department, pyStr (mkGRecord 1 (gZero 1)).is_active,
       isoDate (addDays epoch (mkGRecord 1 (gZero 1)).joinOffset)] := by
  have h := csv_exact_shape gZero
  have hmem : mkRecord 1 (gZero 1) ∈ createData gZero := by
    simp only [createData, List.mem_map]
    exact ⟨1, by decide, rfl⟩
  have hmemG : mkGRecord 1 (gZero 1) ∈ genData gZero := by
    simp only [genData, List.mem_map]
    exact ⟨1, by decide, rfl⟩
  exact ⟨h.2.2.1 _ hmem, h.2.2.2 _ hmemG⟩

/-- C10: every rendered field of every record `create_test_files.py` can
build contains no comma and no newline, so its manually interpolated CSV text
is exactly 101 newline-terminated lines (header plus 100 records), each
holding exactly seven comma-separated fields (six commas). -/
theorem csv_fields_no_delimiters (g : Nat → Draw) :
    (∀ r ∈ createData g, ∀ f ∈ csvFields r, ∀ c ∈ f.data, c ≠ ',' ∧ c ≠ '\n') ∧
    (csvHeader :: (createData g).map csvLine).length = 101 ∧
    (∀ l ∈ csvHeader :: (createData g).map csvLine,
      l.data.count ',' = 6 ∧ '\n' ∉ l.data) ∧
    csvContent (createData g) = mkLines (csvHeader :: (createData g).map csvLine) := by
  have hclean : ∀ r ∈ createData g, ∀ f ∈ csvFields r,
      ∀ c ∈ f.data, c ≠ ',' ∧ c ≠ '\n' := by
    intro r hr
    simp only [createData, List.mem_map] at hr
    obtain ⟨i, _, rfl⟩ := hr
    exact mkRecord_fields_clean i (g i)
  refine ⟨hclean, ?_, ?_, csvContent_mkLines _⟩
  · simp [createData]
  · intro l hl
    rcases List.mem_cons.mp hl with rfl | hl
    · exact ⟨by decide, by decide⟩
    · simp only [List.mem_map] at hl
      obtain ⟨r, hr, rfl⟩ := hl
      rw [csvLine_joinSep]
      have h := joinSep_clean (csvFields r) (hclean r hr)
      simpa [csvFields] using h

/-- C10 witness: the theorem applied to the first generated record. -/
theorem csv_fields_no_delimiters_witness :
    (∀ c ∈ ((mkRecord 1 (gZero 1)).name).data, c ≠ ',' ∧ c ≠ '\n') ∧
    (csvLine (mkRecord 1 (gZero 1))).data.count ',' = 6 := by
  have h := csv_fields_no_delimiters gZero
  have hmem : mkRecord 1 (gZero 1) ∈ createData gZero := by
    simp only [createData, List.mem_map]
    exact ⟨1, by decide, rfl⟩
  refine ⟨h.1 _ hmem _ (by simp [csvFields]), ?_⟩
  exact (h.2.2.1 (csvLine (mkRecord 1 (gZero 1)))
    (List.mem_cons_of_mem _ (List.mem_map.mpr ⟨_, hmem, rfl⟩))).1

/-! ### JSON roundtrip -/

/-- Whitespace characters are skipped one at a time. -/
theorem skipWs_cons_ws (c : Char) (cs : List Char) (h : isWs c = true) :
    skipWs (c :: cs) = skipWs cs := by
  simp [skipWs, h]

/-- Skipping stops at the first non-whitespace character. -/
theorem skipWs_cons_not (c : Char) (cs : List Char) (h : isWs c = false) :
    skipWs (c :: cs) = c :: cs := by
  simp [skipWs, h]

/-- Escaping is the identity on escape-free characters. -/
theorem escList_id :
    ∀ (l : List Char),
      (∀ c ∈ l, 32 ≤ c.toNat ∧ c.toNat ≤ 126 ∧ c ≠ '"' ∧ c ≠ '\\') →
      escList l = l := by
  intro l
  induction l with
  | nil => intro _; rfl
  | cons c cs ih =>
    intro h
    obtain ⟨hlo, hhi, hq, hb⟩ := h c (List.mem_cons_self c cs)
    have hn : c ≠ '\n' := by
      rintro rfl; exact absurd hlo (by decide)
    have ht : c ≠ '\t' := by
      rintro rfl; exact absurd hlo (by decide)
    have hr : c ≠ '\r' := by
      rintro rfl; exact absurd hlo (by decide)
    have h8 : ¬ c.toNat = 8 := by omega
    have h12 : ¬ c.toNat = 12 := by omega
    have hrange : ¬ (c.toNat < 32 ∨ 126 < c.toNat) := by omega
    show (escChar c).data ++ escList cs = c :: cs
    rw [ih (fun x hx => h x (List.mem_cons_of_mem c hx))]
    simp [escChar, hq, hb, hn, ht, hr, h8, h12, hrange]

/-- Escaping is the identity on good strings. -/
theorem esc_id (s : String) (h : goodStr s) : esc s = s := by
  show String.mk (escList s.data) = s
  rw [escList_id s.data h]

/-- Reading a string body past its closing quote recovers the string. -/
theorem readStrAux_append :
    ∀ (l acc rest : List Char), (∀ c ∈ l, c ≠ '"' ∧ c ≠ '\\') →
      readStrAux acc (l ++ '"' :: rest) = some (⟨acc.reverse ++ l⟩, rest) := by
  intro l
  induction l with
  | nil =>
    intro acc rest _
    simp [readStrAux]
  | cons c cs ih =>
    intro acc rest h
    obtain ⟨hq, hb⟩ := h c (List.mem_cons_self c cs)
    show readStrAux acc (c :: (cs ++ '"' :: rest)) = _
    rw [show readStrAux acc (c :: (cs ++ '"' :: rest)) =
        readStrAux (c :: acc) (cs ++ '"' :: rest) by
      simp [readStrAux, hq, hb]]
    rw [ih (c :: acc) rest (fun x hx => h x (List.mem_cons_of_mem c hx))]
    simp

/-- Digits are not whitespace. -/
theorem isWs_of_digit (c : Char) (h : c.isDigit = true) : isWs c = false := by
  have h1 : c ≠ ' ' := by rintro rfl; revert h; decide
  have h2 : c ≠ '\n' := by rintro rfl; revert h; decide
  have h3 : c ≠ '\t' := by rintro rfl; revert h; decide
  have h4 : c ≠ '\r' := by rintro rfl; revert h; decide
  simp [isWs, h1, h2, h3, h4]

/-- Digits are not quotes. -/
theorem digit_ne_quote (c : Char) (h : c.isDigit = true) : c ≠ '"' := by
  rintro rfl; revert h; decide

/-- A serialized scalar never starts with whitespace, so skipping leaves it
in place. -/
theorem skipWs_dumpScalar (v : JScalar) (rest : List Char) :
    skipWs ((dumpScalar v).data ++ rest) = (dumpScalar v).data ++ rest := by
  cases v with
  | jint n =>
    rcases hd : decDigits n with _ | ⟨c, cs⟩
    · exact absurd hd (decDigits_ne_nil n)
    · have hX : (dumpScalar (JScalar.jint n)).data ++ rest = c :: (cs ++ rest) := by
        show (Nat.repr n).data ++ rest = _
        rw [repr_data_eq_decDigits, hd, List.cons_append]
      have hc : c.isDigit = true :=
        decDigits_digit n c (hd ▸ List.mem_cons_self c cs)
      rw [hX]
      exact skipWs_cons_not _ _ (isWs_of_digit c hc)
  | jstr s =>
    have hX : (dumpScalar (JScalar.jstr s)).data ++ rest =
        '"' :: ((esc s).data ++ ('"' :: rest)) := by
      show (("\"" ++ esc s ++ "\"").data ++ rest) = _
      simp only [String.data_append, List.append_assoc]
      rfl
    rw [hX]
    exact skipWs_cons_not _ _ (by decide)
  | jbool b =>
    cases b with
    | true => exact skipWs_cons_not _ _ (by decide)
    | false => exact skipWs_cons_not _ _ (by decide)

/-- Parsing a serialized integer recovers it. -/
theorem parseScalar_int (n : Nat) (rest : List Char)
    (hr : noDigitHead rest = true) :
    parseScalar ((Nat.repr n).data ++ rest) = some (.jint n, rest) := by
  rw [repr_data_eq_decDigits]
  rcases hd : decDigits n with _ | ⟨c, cs⟩
  · exact absurd hd (decDigits_ne_nil n)
  · have hdig : ∀ x ∈ c :: cs, x.isDigit = true := hd ▸ decDigits_digit n
    have hc : c.isDigit = true := hdig c (List.mem_cons_self c cs)
    have hq : ¬ c = '"' := digit_ne_quote c hc
    have hfold : cs.foldl (fun a x => a * 10 + charVal x) (charVal c) = n := by
      have h0 := decDigits_val n 0
      rw [hd] at h0
      simpa using h0
    rw [List.cons_append]
    simp only [parseScalar, hq, if_false, hc, if_true]
    rw [readNatAux_append cs (charVal c) rest
      (fun x hx => hdig x (List.mem_cons_of_mem c hx)) hr, hfold]

/-- Parsing a serialized good string recovers it. -/
theorem parseScalar_str (s : String) (rest : List Char) (h : goodStr s) :
    parseScalar ((dumpScalar (.jstr s)).data ++ rest) = some (.jstr s, rest) := by
  have hdata : (dumpScalar (.jstr s)).data ++ rest =
      '"' :: (s.data ++ '"' :: rest) := by
    show (("\"" ++ esc s ++ "\"").data ++ rest) = _
    rw [esc_id s h]
    simp
  rw [hdata]
  simp only [parseScalar, if_pos rfl]
  rw [readStrAux_append s.data [] rest
    (fun c hc => ⟨(h c hc).2.2.1, (h c hc).2.2.2⟩)]
  simp

/-- Parsing a serialized boolean recovers it. -/
theorem parseScalar_bool (b : Bool) (rest : List Char) :
    parseScalar ((dumpScalar (.jbool b)).data ++ rest) = some (.jbool b, rest) := by
  cases b <;> rfl

/-- Parsing any serialized wellformed scalar recovers it. -/
theorem parseScalar_dump (v : JScalar) (rest : List Char)
    (hv : wfScalar v) (hr : noDigitHead rest = true) :
    parseScalar ((dumpScalar v).data ++ rest) = some (v, rest) := by
  cases v with
  | jint n => exact parseScalar_int n rest hr
  | jstr s => exact parseScalar_str s rest hv
  | jbool b => exact parseScalar_bool b rest

/-- Unfolding of `parseKey` at a quote. -/
theorem parseKey_step (cs cs1 : List Char) (h : skipWs cs = '"' :: cs1) :
    parseKey cs = readStrAux [] cs1 := by
  unfold parseKey
  rw [h]
  rfl

/-- Unfolding of `parseColon` at a colon. -/
theorem parseColon_step (cs cs3 : List Char) (h : skipWs cs = ':' :: cs3) :
    parseColon cs = some cs3 := by
  unfold parseColon
  rw [h]
  rfl

/-- The indented pair rendering in explicit character form. -/
theorem dumpPairInd_chars (k : String) (v : JScalar) (rest : List Char)
    (hk : goodStr k) :
    (dumpPairInd (k, v)).data ++ rest =
      ' ' :: ' ' :: ' ' :: ' ' ::
        ('"' :: (k.data ++ ('"' :: ':' :: ' ' :: ((dumpScalar v).data ++ rest)))) := by
  show (("    " ++ ("\"" ++ esc k ++ "\": " ++ dumpScalar v)).data ++ rest) = _
  rw [esc_id k hk]
  simp only [String.data_append, List.append_assoc]
  rfl

/-- Parsing a serialized pair recovers it. -/
theorem parsePair_dump (p : String × JScalar) (rest : List Char)
    (hp : wfPair p) (hr : noDigitHead rest = true) :
    parsePair ((dumpPairInd p).data ++ rest) = some (p, rest) := by
  obtain ⟨k, v⟩ := p
  obtain ⟨hk, hv⟩ := hp
  rw [dumpPairInd_chars k v rest hk]
  unfold parsePair
  have hskip : skipWs (' ' :: ' ' :: ' ' :: ' ' ::
      ('"' :: (k.data ++ ('"' :: ':' :: ' ' :: ((dumpScalar v).data ++ rest))))) =
      '"' :: (k.data ++ ('"' :: ':' :: ' ' :: ((dumpScalar v).data ++ rest))) := by
    rw [skipWs_cons_ws _ _ (by decide), skipWs_cons_ws _ _ (by decide),
      skipWs_cons_ws _ _ (by decide), skipWs_cons_ws _ _ (by decide)]
    exact skipWs_cons_not _ _ (by decide)
  rw [parseKey_step _ _ hskip]
  rw [readStrAux_append k.data [] _
    (fun c hc => ⟨(hk c hc).2.2.1, (hk c hc).2.2.2⟩)]
  rw [show (⟨List.reverse [] ++ k.data⟩ : String) = k from rfl]
  simp only [Option.some_bind]
  rw [parseColon_step _ _ (skipWs_cons_not _ _ (by decide))]
  simp only [Option.some_bind]
  rw [skipWs_cons_ws _ _ (by decide), skipWs_dumpScalar,
    parseScalar_dump v rest hv hr]
  simp

/-- `parsePair` ignores one leading whitespace character. -/
theorem parsePair_cons_ws (c : Char) (cs : List Char) (h : isWs c = true) :
    parsePair (c :: cs) = parsePair cs := by
  unfold parsePair parseKey
  rw [skipWs_cons_ws _ _ h]

/-- Unfolding of the pair loop at a closing brace. -/
theorem parsePairsRest_close (fuel : Nat) (acc : List (String × JScalar))
    (cs r : List Char) (h : skipWs cs = '\x7d' :: r) :
    parsePairsRest (fuel + 1) acc cs = some (acc.reverse, r) := by
  simp only [parsePairsRest]
  rw [h]
  rfl

/-- Unfolding of the pair loop at a separator comma. -/
theorem parsePairsRest_comma (fuel : Nat) (acc : List (String × JScalar))
    (cs r : List Char) (h : skipWs cs = ',' :: r) :
    parsePairsRest (fuel + 1) acc cs =
      (parsePair r).bind fun pc => parsePairsRest fuel (pc.1 :: acc) pc.2 := by
  simp only [parsePairsRest]
  rw [h]
  rfl

/-- What follows a serialized pair never starts with a digit. -/
theorem noDigitHead_sepPairs (ps : List (String × JScalar)) (l : List Char) :
    noDigitHead (sepPairsChars ps ++ '\n' :: l) = true := by
  cases ps <;> rfl

/-- The joined pair renderings in explicit character form. -/
theorem joinSep_pairs_data :
    ∀ (ps : List (String × JScalar)) (p : String × JScalar),
      (joinSep ",\n" ((p :: ps).map dumpPairInd)).data =
        (dumpPairInd p).data ++ sepPairsChars ps := by
  intro ps
  induction ps with
  | nil => intro p; simp [joinSep, sepPairsChars]
  | cons q qs ih =>
    intro p
    have hstep : joinSep ",\n" (List.map dumpPairInd (p :: q :: qs)) =
        dumpPairInd p ++ ",\n" ++ joinSep ",\n" (List.map dumpPairInd (q :: qs)) := rfl
    rw [hstep, String.data_append, String.data_append, ih q]
    show ((dumpPairInd p).data ++ (",\n").data) ++ _ =
      (dumpPairInd p).data ++ (',' :: '\n' :: ((dumpPairInd q).data ++ sepPairsChars qs))
    simp [List.append_assoc]

/-- The pair loop consumes all remaining serialized pairs up to the closing
brace. -/
theorem parsePairsRest_dump :
    ∀ (ps : List (String × JScalar)) (fuel : Nat)
      (acc : List (String × JScalar)) (rest : List Char),
      ps.length < fuel → (∀ q ∈ ps, wfPair q) →
      parsePairsRest fuel acc
          (sepPairsChars ps ++ '\n' :: ' ' :: ' ' :: '\x7d' :: rest) =
        some (acc.reverse ++ ps, rest) := by
  intro ps
  induction ps with
  | nil =>
    intro fuel acc rest hf _
    cases fuel with
    | zero => omega
    | succ fuel =>
      have hskip : skipWs (sepPairsChars [] ++
          '\n' :: ' ' :: ' ' :: '\x7d' :: rest) = '\x7d' :: rest := by
        show skipWs ('\n' :: ' ' :: ' ' :: '\x7d' :: rest) = _
        rw [skipWs_cons_ws _ _ (by decide), skipWs_cons_ws _ _ (by decide),
          skipWs_cons_ws _ _ (by decide)]
        exact skipWs_cons_not _ _ (by decide)
      rw [parsePairsRest_close fuel acc _ rest hskip]
      simp
  | cons p ps ih =>
    intro fuel acc rest hf hwf
    cases fuel with
    | zero => exact absurd hf (by omega)
    | succ fuel =>
      have hin : sepPairsChars (p :: ps) ++ '\n' :: ' ' :: ' ' :: '\x7d' :: rest =
          ',' :: '\n' :: ((dumpPairInd p).data ++
            (sepPairsChars ps ++ ('\n' :: ' ' :: ' ' :: '\x7d' :: rest))) := by
        simp [sepPairsChars, List.append_assoc]
      rw [hin]
      rw [parsePairsRest_comma fuel acc _ _ (skipWs_cons_not _ _ (by decide))]
      rw [parsePair_cons_ws _ _ (by decide)]
      rw [parsePair_dump p _ (hwf p (List.mem_cons_self p ps))
        (noDigitHead_sepPairs ps _)]
      simp only [Option.some_bind]
      have hlen : (p :: ps).length = ps.length + 1 := rfl
      rw [ih fuel (p :: acc) rest (by omega)
        (fun q hq => hwf q (List.mem_cons_of_mem p hq))]
      simp

/-- The indented pair rendering in raw character form (escaping kept). -/
theorem dumpPairInd_chars_raw (p : String × JScalar) (rest : List Char) :
    (dumpPairInd p).data ++ rest =
      ' ' :: ' ' :: ' ' :: ' ' ::
        ('"' :: ((esc p.1).data ++
          ('"' :: ':' :: ' ' :: ((dumpScalar p.2).data ++ rest)))) := by
  show (("    " ++ ("\"" ++ esc p.1 ++ "\": " ++ dumpScalar p.2)).data ++ rest) = _
  simp only [String.data_append, List.append_assoc]
  rfl

/-- The indented object rendering in explicit character form. -/
theorem dumpObjInd_data (p : String × JScalar) (ps : List (String × JScalar)) :
    (dumpObjInd (p :: ps)).data = '\x7b' :: objBodyChars (p :: ps) := by
  show ("\x7b\n" ++ joinSep ",\n" ((p :: ps).map dumpPairInd) ++ "\n  \x7d").data = _
  simp only [String.data_append, List.append_assoc, objBodyChars]
  rfl

/-- Unfolding of `parseObj` at anything but a closing brace. -/
theorem parseObj_step (fuel : Nat) (cs : List Char) (c : Char) (X : List Char)
    (h : skipWs cs = c :: X) (hc : c ≠ '\x7d') :
    parseObj fuel cs =
      (parsePair cs).bind fun pc => parsePairsRest fuel [pc.1] pc.2 := by
  unfold parseObj
  rw [h]
  split
  · rename_i r heq
    injection heq with h1 _
    exact absurd h1 hc
  · rfl

/-- Parsing a serialized nonempty object body recovers its pairs. -/
theorem parseObj_dump (p : String × JScalar) (ps : List (String × JScalar))
    (fuel : Nat) (rest : List Char) (hf : ps.length < fuel)
    (hwf : ∀ q ∈ p :: ps, wfPair q) :
    parseObj fuel (objBodyChars (p :: ps) ++ rest) = some (p :: ps, rest) := by
  have hin : objBodyChars (p :: ps) ++ rest =
      '\n' :: ((dumpPairInd p).data ++
        (sepPairsChars ps ++ ('\n' :: ' ' :: ' ' :: '\x7d' :: rest))) := by
    show ('\n' :: ((joinSep ",\n" ((p :: ps).map dumpPairInd)).data ++ _)) ++ rest = _
    rw [joinSep_pairs_data ps p]
    simp [List.append_assoc]
  rw [hin]
  have hskip : skipWs ('\n' :: ((dumpPairInd p).data ++
      (sepPairsChars ps ++ ('\n' :: ' ' :: ' ' :: '\x7d' :: rest)))) =
      '"' :: ((esc p.1).data ++
        ('"' :: ':' :: ' ' :: ((dumpScalar p.2).data ++
          (sepPairsChars ps ++ ('\n' :: ' ' :: ' ' :: '\x7d' :: rest))))) := by
    rw [skipWs_cons_ws _ _ (by decide), dumpPairInd_chars_raw,
      skipWs_cons_ws _ _ (by decide), skipWs_cons_ws _ _ (by decide),
      skipWs_cons_ws _ _ (by decide), skipWs_cons_ws _ _ (by decide)]
    exact skipWs_cons_not _ _ (by decide)
  rw [parseObj_step fuel _ '"' _ hskip (by decide)]
  rw [parsePair_cons_ws _ _ (by decide)]
  rw [parsePair_dump p _ (hwf p (List.mem_cons_self p ps))
    (noDigitHead_sepPairs ps _)]
  simp only [Option.some_bind]
  rw [parsePairsRest_dump ps fuel [p] rest hf
    (fun q hq => hwf q (List.mem_cons_of_mem p hq))]
  simp

/-- Unfolding of the object loop at a closing bracket. -/
theorem parseObjsRest_close (fuel : Nat) (acc : List (List (String × JScalar)))
    (cs r : List Char) (h : skipWs cs = ']' :: r) :
    parseObjsRest (fuel + 1) acc cs = some (acc.reverse, r) := by
  simp only [parseObjsRest]
  rw [h]
  rfl

/-- Unfolding of the object loop at a separator comma. -/
theorem parseObjsRest_comma (fuel : Nat) (acc : List (List (String × JScalar)))
    (cs r : List Char) (h : skipWs cs = ',' :: r) :
    parseObjsRest (fuel + 1) acc cs =
      (parseArrItem fuel r).bind fun oc => parseObjsRest fuel (oc.1 :: acc) oc.2 := by
  simp only [parseObjsRest]
  rw [h]
  rfl

/-- Unfolding of `parseArrItem` at an opening brace. -/
theorem parseArrItem_step (fuel : Nat) (cs r2 : List Char)
    (h : skipWs cs = '\x7b' :: r2) :
    parseArrItem fuel cs = parseObj fuel r2 := by
  unfold parseArrItem
  rw [h]
  rfl

/-- Skipping the whitespace before an array element reaches its brace. -/
theorem skipWs_objItem (q : String × JScalar) (qs : List (String × JScalar))
    (R : List Char) :
    skipWs ('\n' :: ' ' :: ' ' :: ((dumpObjInd (q :: qs)).data ++ R)) =
      '\x7b' :: (objBodyChars (q :: qs) ++ R) := by
  rw [skipWs_cons_ws _ _ (by decide), skipWs_cons_ws _ _ (by decide),
    skipWs_cons_ws _ _ (by decide), dumpObjInd_data, List.cons_append]
  exact skipWs_cons_not _ _ (by decide)

/-- The object loop consumes all remaining serialized objects up to the
closing bracket. -/
theorem parseObjsRest_dump :
    ∀ (os : List (List (String × JScalar))) (fuel : Nat)
      (acc : List (List (String × JScalar))) (rest : List Char),
      pairsCount os < fuel →
      (∀ o ∈ os, ∀ p ∈ o, wfPair p) → (∀ o ∈ os, o ≠ []) →
      parseObjsRest fuel acc (sepObjsChars os ++ '\n' :: ']' :: rest) =
        some (acc.reverse ++ os, rest) := by
  intro os
  induction os with
  | nil =>
    intro fuel acc rest hf _ _
    cases fuel with
    | zero => omega
    | succ fuel =>
      have hskip : skipWs (sepObjsChars [] ++ '\n' :: ']' :: rest) =
          ']' :: rest := by
        show skipWs ('\n' :: ']' :: rest) = _
        rw [skipWs_cons_ws _ _ (by decide)]
        exact skipWs_cons_not _ _ (by decide)
      rw [parseObjsRest_close fuel acc _ rest hskip]
      simp
  | cons o os ih =>
    intro fuel acc rest hf hwf hne
    cases fuel with
    | zero =>
      have : 1 ≤ pairsCount (o :: os) := by
        show 1 ≤ o.length + 1 + pairsCount os
        omega
      omega
    | succ fuel =>
      rcases hoe : o with _ | ⟨q, qs⟩
      · exact absurd hoe (hne o (List.mem_cons_self o os))
      subst hoe
      have hin : sepObjsChars ((q :: qs) :: os) ++ '\n' :: ']' :: rest =
          ',' :: ('\n' :: ' ' :: ' ' :: ((dumpObjInd (q :: qs)).data ++
            (sepObjsChars os ++ '\n' :: ']' :: rest))) := by
        simp [sepObjsChars, List.append_assoc]
      rw [hin]
      rw [parseObjsRest_comma fuel acc _ _ (skipWs_cons_not _ _ (by decide))]
      rw [parseArrItem_step fuel _ _ (skipWs_objItem q qs _)]
      have hcount : pairsCount ((q :: qs) :: os) =
          qs.length + 2 + pairsCount os := by
        show (q :: qs).length + 1 + pairsCount os = _
        simp
      rw [parseObj_dump q qs fuel _ (by omega)
        (hwf (q :: qs) (List.mem_cons_self _ os))]
      simp only [Option.some_bind]
      rw [ih fuel ((q :: qs) :: acc) rest (by omega)
        (fun x hx => hwf x (List.mem_cons_of_mem _ hx))
        (fun x hx => hne x (List.mem_cons_of_mem _ hx))]
      simp

/-- Unfolding of `parseTop` at an object. -/
theorem parseTop_obj (fuel : Nat) (cs r2 : List Char)
    (h : skipWs cs = '\x7b' :: r2) :
    parseTop fuel cs =
      (parseObj fuel r2).bind fun oc =>
        (parseObjsRest fuel [oc.1] oc.2).bind fun osc =>
          if (skipWs osc.2).isEmpty then some osc.1 else none := by
  unfold parseTop
  rw [h]
  rfl

/-- Unfolding of `parseFile` at the opening bracket. -/
theorem parseFile_open (s : String) (r : List Char)
    (h : skipWs s.data = '[' :: r) :
    parseFile s = parseTop s.data.length r := by
  unfold parseFile
  rw [h]
  rfl

/-- The joined element renderings in explicit character form. -/
theorem joinSep_objs_data :
    ∀ (os : List (List (String × JScalar))) (o : List (String × JScalar)),
      (joinSep ",\n" ((o :: os).map fun x => "  " ++ dumpObjInd x)).data =
        ' ' :: ' ' :: ((dumpObjInd o).data ++ sepObjsChars os) := by
  intro os
  induction os with
  | nil => intro o; simp [joinSep, sepObjsChars]
  | cons o2 os ih =>
    intro o
    have hstep : joinSep ",\n" (List.map (fun x => "  " ++ dumpObjInd x) (o :: o2 :: os)) =
        ("  " ++ dumpObjInd o) ++ ",\n" ++
          joinSep ",\n" (List.map (fun x => "  " ++ dumpObjInd x) (o2 :: os)) := rfl
    rw [hstep, String.data_append, String.data_append, ih o2]
    show ((("  ").data ++ (dumpObjInd o).data) ++ (",\n").data) ++ _ =
      ' ' :: ' ' :: ((dumpObjInd o).data ++
        (',' :: '\n' :: ' ' :: ' ' :: ((dumpObjInd o2).data ++ sepObjsChars os)))
    simp [List.append_assoc]

/-- The serialized document in explicit character form. -/
theorem dumpFile_data (o : List (String × JScalar))
    (os : List (List (String × JScalar))) :
    (dumpFile (o :: os)).data =
      '[' :: '\n' :: ' ' :: ' ' ::
        ((dumpObjInd o).data ++ (sepObjsChars os ++ ('\n' :: ']' :: []))) := by
  show ("[\n" ++ joinSep ",\n" ((o :: os).map fun x => "  " ++ dumpObjInd x) ++ "\n]").data = _
  rw [String.data_append, String.data_append, joinSep_objs_data os o]
  show (("[\n").data ++ (' ' :: ' ' :: ((dumpObjInd o).data ++ sepObjsChars os))) ++ ("\n]").data = _
  simp [List.append_assoc]

/-- A serialized pair takes at least its four indent characters. -/
theorem dumpPairInd_len (p : String × JScalar) :
    4 ≤ (dumpPairInd p).data.length := by
  have h := dumpPairInd_chars_raw p []
  rw [List.append_nil] at h
  rw [h]
  simp

/-- The separated pair tail is at least one character per pair. -/
theorem sepPairs_len (ps : List (String × JScalar)) :
    ps.length ≤ (sepPairsChars ps).length := by
  induction ps with
  | nil => simp [sepPairsChars]
  | cons p ps ih =>
    show (p :: ps).length ≤ (',' :: '\n' :: ((dumpPairInd p).data ++ sepPairsChars ps)).length
    simp only [List.length_cons, List.length_append]
    omega

/-- A serialized nonempty object outweighs its pair count plus one. -/
theorem dumpObjInd_len (q : String × JScalar) (qs : List (String × JScalar)) :
    (q :: qs).length + 1 ≤ (dumpObjInd (q :: qs)).data.length := by
  rw [dumpObjInd_data]
  show (q :: qs).length + 1 ≤
    ('\x7b' :: '\n' :: ((joinSep ",\n" ((q :: qs).map dumpPairInd)).data ++
      ('\n' :: ' ' :: ' ' :: '\x7d' :: []))).length
  rw [joinSep_pairs_data qs q]
  have h1 := dumpPairInd_len q
  have h2 := sepPairs_len qs
  simp only [List.length_cons, List.length_append]
  simp only [List.length_cons, List.length_nil]
  omega

/-- The separated object tail outweighs its total pair count. -/
theorem sepObjs_len :
    ∀ (os : List (List (String × JScalar))), (∀ o ∈ os, o ≠ []) →
      pairsCount os ≤ (sepObjsChars os).length := by
  intro os
  induction os with
  | nil => intro _; simp [pairsCount, sepObjsChars]
  | cons o os ih =>
    intro hne
    rcases hoe : o with _ | ⟨q, qs⟩
    · exact absurd hoe (hne o (List.mem_cons_self o os))
    subst hoe
    have h1 := dumpObjInd_len q qs
    have h2 := ih (fun x hx => hne x (List.mem_cons_of_mem _ hx))
    show (q :: qs).length + 1 + pairsCount os ≤
      (',' :: '\n' :: ' ' :: ' ' ::
        ((dumpObjInd (q :: qs)).data ++ sepObjsChars os)).length
    simp only [List.length_cons, List.length_append]
    simp only [List.length_cons] at h1
    omega

/-- The whole document outweighs its total pair count. -/
theorem dumpFile_len_bound (o : List (String × JScalar))
    (os : List (List (String × JScalar)))
    (hne : ∀ x ∈ o :: os, x ≠ []) :
    pairsCount (o :: os) ≤ (dumpFile (o :: os)).data.length := by
  rcases hoe : o with _ | ⟨q, qs⟩
  · exact absurd hoe (hne o (List.mem_cons_self o os))
  subst hoe
  rw [dumpFile_data]
  have h1 := dumpObjInd_len q qs
  have h2 := sepObjs_len os (fun x hx => hne x (List.mem_cons_of_mem _ hx))
  show (q :: qs).length + 1 + pairsCount os ≤ _
  simp only [List.length_cons, List.length_append, List.length_nil]
  simp only [List.length_cons] at h1
  omega

/-- Parsing any serialized wellformed document of nonempty objects recovers
exactly the objects. -/
theorem parseFile_dump (objs : List (List (String × JScalar)))
    (hne : objs ≠ []) (hwf : ∀ o ∈ objs, ∀ p ∈ o, wfPair p)
    (hK : ∀ o ∈ objs, o ≠ []) :
    parseFile (dumpFile objs) = some objs := by
  rcases objs with _ | ⟨o, os⟩
  · exact absurd rfl hne
  rcases hoe : o with _ | ⟨q, qs⟩
  · exact absurd hoe (hK o (List.mem_cons_self o os))
  subst hoe
  have hb := dumpFile_len_bound (q :: qs) os hK
  have hcount : pairsCount ((q :: qs) :: os) = qs.length + 2 + pairsCount os := by
    show (q :: qs).length + 1 + pairsCount os = _
    simp
  have hopen : skipWs (dumpFile ((q :: qs) :: os)).data =
      '[' :: ('\n' :: ' ' :: ' ' :: ((dumpObjInd (q :: qs)).data ++
        (sepObjsChars os ++ ('\n' :: ']' :: [])))) := by
    rw [dumpFile_data]
    exact skipWs_cons_not _ _ (by decide)
  rw [parseFile_open _ _ hopen]
  rw [parseTop_obj _ _ _ (skipWs_objItem q qs _)]
  rw [parseObj_dump q qs _ _ (by omega)
    (hwf (q :: qs) (List.mem_cons_self _ os))]
  simp only [Option.some_bind]
  rw [parseObjsRest_dump os _ [q :: qs] [] (by omega)
    (fun x hx => hwf x (List.mem_cons_of_mem _ hx))
    (fun x hx => hK x (List.mem_cons_of_mem _ hx))]
  simp [skipWs]

/-- Decimal digit characters are escape-free printable ASCII. -/
theorem digitChar_good :
    ∀ d, d < 10 → 32 ≤ (Nat.digitChar d).toNat ∧ (Nat.digitChar d).toNat ≤ 126 ∧
      Nat.digitChar d ≠ '"' ∧ Nat.digitChar d ≠ '\\' := by
  decide

/-- Every character of `decDigits` is escape-free printable ASCII. -/
theorem decDigits_good (n : Nat) :
    ∀ c ∈ decDigits n,
      32 ≤ c.toNat ∧ c.toNat ≤ 126 ∧ c ≠ '"' ∧ c ≠ '\\' := by
  induction n using Nat.strong_induction_on with
  | _ n ih =>
    by_cases h : n < 10
    · rw [decDigits_lt n h]
      intro c hc
      simp only [List.mem_singleton] at hc
      subst hc
      exact digitChar_good n h
    · rw [decDigits_ge n h]
      intro c hc
      rw [List.mem_append] at hc
      rcases hc with hc | hc
      · exact ih (n / 10) (Nat.div_lt_self (by omega) (by omega)) c hc
      · simp only [List.mem_singleton] at hc
        subst hc
        exact digitChar_good _ (Nat.mod_lt _ (by omega))

/-- Decimal renderings are good strings. -/
theorem goodStr_repr (n : Nat) : goodStr (Nat.repr n) := by
  intro c hc
  rw [repr_data_eq_decDigits] at hc
  exact decDigits_good n c hc

/-- Good strings are closed under append. -/
theorem goodStr_append (s t : String) (hs : goodStr s) (ht : goodStr t) :
    goodStr (s ++ t) := by
  intro c hc
  rw [String.data_append, List.mem_append] at hc
  rcases hc with hc | hc
  exacts [hs c hc, ht c hc]

/-- Zero-padded fields are good strings. -/
theorem goodStr_pad2 (n : Nat) : goodStr (pad2 n) := by
  have h0 : goodStr "0" := by unfold goodStr; decide
  unfold pad2
  split
  · exact goodStr_append _ _ h0 (goodStr_repr n)
  · exact goodStr_repr n

/-- ISO timestamps are good strings. -/
theorem goodStr_isoDateTime (dt : Date) : goodStr (isoDateTime dt) := by
  have hdash : goodStr "-" := by unfold goodStr; decide
  have hT : goodStr "T00:00:00" := by unfold goodStr; decide
  unfold isoDateTime isoDate
  exact goodStr_append _ _
    (goodStr_append _ _
      (goodStr_append _ _
        (goodStr_append _ _
          (goodStr_append _ _ (goodStr_repr dt.y) hdash)
          (goodStr_pad2 dt.m))
        hdash)
      (goodStr_pad2 dt.d))
    hT

/-- Department names are good strings. -/
theorem goodStr_department (s : Nat) : goodStr (pyChoice departments s) := by
  have h : s % 4 = 0 ∨ s % 4 = 1 ∨ s % 4 = 2 ∨ s % 4 = 3 := by omega
  unfold pyChoice
  have hlen : departments.length = 4 := rfl
  rw [hlen]
  rcases h with h | h | h | h <;> rw [h] <;> unfold goodStr <;> decide

/-- Every serialized pair of a built record is wellformed. -/
theorem recordPairs_wf (i : Nat) (dr : Draw) :
    ∀ p ∈ recordPairs (mkRecord i dr), wfPair p := by
  have hkeys : goodStr "id" ∧ goodStr "name" ∧ goodStr "age" ∧
      goodStr "salary" ∧ goodStr "department" ∧ goodStr "is_active" ∧
      goodStr "join_date" := by
    unfold goodStr
    refine ⟨?_, ?_, ?_, ?_, ?_, ?_, ?_⟩ <;> decide
  have hP : goodStr "Person_" := by unfold goodStr; decide
  intro p hp
  simp only [recordPairs, List.mem_cons, List.not_mem_nil, or_false] at hp
  rcases hp with rfl | rfl | rfl | rfl | rfl | rfl | rfl
  · exact ⟨hkeys.1, trivial⟩
  · refine ⟨hkeys.2.1, ?_⟩
    show goodStr (mkRecord i dr).name
    simp only [mkRecord]
    exact goodStr_append _ _ hP (goodStr_repr i)
  · exact ⟨hkeys.2.2.1, trivial⟩
  · exact ⟨hkeys.2.2.2.1, trivial⟩
  · refine ⟨hkeys.2.2.2.2.1, ?_⟩
    show goodStr (mkRecord i dr).department
    simp only [mkRecord]
    exact goodStr_department _
  · exact ⟨hkeys.2.2.2.2.2.1, trivial⟩
  · refine ⟨hkeys.2.2.2.2.2.2, ?_⟩
    show goodStr (mkRecord i dr).join_date
    simp only [mkRecord]
    exact goodStr_isoDateTime _

/-- C7: the emitted sample.json parses back to exactly the serialized
objects, and re-serializing them with the same 2-space indentation policy
reproduces the file byte for byte, whatever values the random draws took. -/
theorem json_roundtrip (g : Nat → Draw) :
    parseFile (jsonContent (createData g)) =
      some ((createData g).map recordPairs) ∧
    dumpFile ((createData g).map recordPairs) = jsonContent (createData g) := by
  constructor
  · apply parseFile_dump
    · intro h
      have hlen := congrArg List.length h
      simp [createData] at hlen
    · intro o ho
      simp only [List.mem_map] at ho
      obtain ⟨r, hr, rfl⟩ := ho
      simp only [createData, List.mem_map] at hr
      obtain ⟨i, _, rfl⟩ := hr
      exact recordPairs_wf i (g i)
    · intro o ho
      simp only [List.mem_map] at ho
      obtain ⟨r, _, rfl⟩ := ho
      simp [recordPairs]
  · rfl

end TFGen
